import Mathlib

/-!
Shallow embedding of the Gemstone process supervisor
(`internal/process/process.go`, `internal/logger`, `internal/stats`,
`internal/config`, `internal/types`) and verification of the frozen
claims about it.

Conventions of the embedding:
* Go `time.Time` values are opaque instants, modelled as `Int`.
* Go machine `int` values (`MaxRestarts`, `RestartCount`, tail counts,
  pids) are modelled as `Int`; lengths coming from `len(...)` are
  nonnegative by construction.
* OS effects (uuid generation, credential lookup, pipe creation,
  `cmd.Start`, the clock) are passed in explicitly as oracle records,
  so every Go control path is a Lean control path on the oracle.
* A Go `map[K]V` is modelled as a `List` of entries; the list order is
  one possible iteration order of the map (Go leaves it unspecified).
-/

namespace Gemstone

/-- `types.ProcessStatus`: the six status strings of `types.go`. -/
inductive ProcessStatus where
  | stopped
  | running
  | starting
  | stopping
  | errored
  | restarting
deriving DecidableEq, Repr

/-- Errors produced by the embedded operations.  Each constructor stands
for one `fmt.Errorf` site of the source; the `String` payloads carry the
process name or reference interpolated into the message. -/
inductive ProcErr where
  /-- `process %s is already running` (`Process.Start`). -/
  | alreadyRunning (name : String)
  /-- `process %s is not running` (`Process.Stop`). -/
  | notRunning (name : String)
  /-- `failed to get user credentials: %w` (`Process.Start`). -/
  | credentials (name : String)
  /-- `failed to create stdout pipe: %w` (`Process.Start`). -/
  | stdoutPipe (name : String)
  /-- `failed to create stderr pipe: %w` (`Process.Start`). -/
  | stderrPipe (name : String)
  /-- `failed to start process: %w` (`Process.Start`). -/
  | execFail (name : String)
  /-- `failed to create logger: %w` (`process.New`). -/
  | loggerCreate (name : String)
  /-- `process with name %s already exists` (`Manager.Start`). -/
  | nameConflict (name : String)
  /-- `process %s not found` (`Manager` lookups). -/
  | notFound (ref : String)
deriving DecidableEq, Repr

/-- The lifecycle-relevant fields of `types.ProcessInfo`.  The read-only
enrichment fields that `Process.Info` fills from a live probe
(`Uptime`, `CPU`, `Memory`, `MemoryPercent`) are outside the embedded
operations and omitted. -/
structure ProcessInfo where
  id : String
  name : String
  status : ProcessStatus
  pid : Int
  command : String
  args : List String
  workDir : String
  env : List (String × String)
  autoStart : Bool
  autoRestart : Bool
  maxRestarts : Int
  restartCount : Int
  user : String
  group : String
  createdAt : Int
  startedAt : Option Int
  stoppedAt : Option Int
deriving DecidableEq, Repr

/-- `types.StartRequest`. -/
structure StartRequest where
  name : String
  command : String
  args : List String
  workDir : String
  env : List (String × String)
  autoStart : Bool
  autoRestart : Bool
  maxRestarts : Int
  user : String
  group : String
deriving DecidableEq, Repr

/-- `config.Process`: the durable form persisted in `processes.json`. -/
structure ConfigProcess where
  id : String
  name : String
  command : String
  args : List String
  workDir : String
  env : List (String × String)
  autoStart : Bool
  autoRestart : Bool
  maxRestarts : Int
  user : String
  group : String
deriving DecidableEq, Repr

/-! ## Output logger (`internal/logger/logger.go`) -/

/-- The on-disk state of one log file as seen by `os.Open`:
absent (`os.IsNotExist`), readable with these lines, or failing
with some other I/O error. -/
inductive FileState where
  | missing
  | present (lines : List String)
  | unreadable
deriving DecidableEq, Repr

/-- `readLastLines(path, n)`: scan all lines, then return them all when
`n <= 0 || n >= len(lines)`, else the last `n`.  A missing file yields
`([]string{}, nil)`; any other open error is returned. -/
def readLastLines (file : FileState) (n : Int) : Except String (List String) :=
  match file with
  | FileState.missing => Except.ok []
  | FileState.unreadable => Except.error "open failed"
  | FileState.present lines =>
      if n ≤ 0 ∨ n ≥ (lines.length : Int) then
        Except.ok lines
      else
        Except.ok (lines.drop (lines.length - n.toNat))

namespace ProcessLogger

/-- The file that `ProcessLogger.GetLogs` selects for a given `logType`:
`"stdout"` and `"stderr"` pick their own files, every other value falls
through the `switch`'s `default` to `combined.log`. -/
def logFileName (logType : String) : String :=
  if logType = "stdout" then "stdout.log"
  else if logType = "stderr" then "stderr.log"
  else "combined.log"

/-- `ProcessLogger.GetLogs(lines, logType)`: resolve the file by
`logType` and delegate to `readLastLines`.  `fs` is the state of the
logger's directory, one `FileState` per file name. -/
def GetLogs (fs : String → FileState) (lines : Int) (logType : String) :
    Except String (List String) :=
  readLastLines (fs (logFileName logType)) lines

end ProcessLogger

/-! ## Stats rings (`Process.CollectStats`, `stats.Collector.collect`) -/

/-- `types.ProcessStats`, with `float64` readings modelled as `Int`
(no arithmetic on them is verified). -/
structure ProcessStats where
  id : String
  pid : Int
  cpu : Int
  memory : Int
  memoryPercent : Int
  numThreads : Int
  numFDs : Int
  readBytes : Int
  writeBytes : Int
  timestamp : Int
deriving DecidableEq, Repr

/-- `types.SystemStats`, with `float64` readings modelled as `Int`. -/
structure SystemStats where
  cpuPercent : Int
  memoryTotal : Int
  memoryUsed : Int
  memoryPercent : Int
  diskTotal : Int
  diskUsed : Int
  diskPercent : Int
  loadAverage : List Int
  uptime : Int
  timestamp : Int
deriving DecidableEq, Repr

/-- The ring append of `Process.CollectStats`: append the sample, and
when the history exceeds `maxHistory` keep only the trailing
`maxHistory` entries (`p.statsHistory[len-maxHistory:]`).
`Process.New` sets `maxHistory = 1000`. -/
def collectStatsStep (maxHistory : Nat) (statsHistory : List ProcessStats)
    (s : ProcessStats) : List ProcessStats :=
  let h := statsHistory ++ [s]
  if maxHistory < h.length then h.drop (h.length - maxHistory) else h

namespace Collector

/-- The ring append of `stats.Collector.collect` for host samples:
append, then keep the trailing `maxHistory` entries
(`c.systemStats[len-maxHistory:]`).  `NewCollector` sets
`maxHistory = 1000`. -/
def collectStep (maxHistory : Nat) (systemStats : List SystemStats)
    (s : SystemStats) : List SystemStats :=
  let h := systemStats ++ [s]
  if maxHistory < h.length then h.drop (h.length - maxHistory) else h

end Collector

/-! ## Process lifecycle (`internal/process/process.go`) -/

/-- Oracle for the OS effects of one `Process.Start` attempt: whether
`getUserCredentials`, `cmd.StdoutPipe`, `cmd.StderrPipe` and
`cmd.Start` fail, the pid the kernel assigns, and the clock reading
taken after a successful start. -/
structure ExecEnv where
  credsFail : Bool
  stdoutPipeFail : Bool
  stderrPipeFail : Bool
  startFail : Bool
  newPid : Int
  now : Int
deriving DecidableEq, Repr

/-- The result of one `Process.Start` call: the updated `info`, the
returned `error`, and whether a child was actually launched (`cmd.Start`
ran and succeeded). -/
structure StartOutcome where
  info : ProcessInfo
  result : Except ProcErr Unit
  launched : Bool
deriving Repr

namespace Process

/-- `Process.Start`: reject only `StatusRunning`; otherwise set
`StatusStarting`, then walk the effectful steps in source order —
credentials (only when `User != ""`), stdout pipe, stderr pipe,
`cmd.Start` — each failure setting `StatusErrored`.  On success record
the pid, set `StatusRunning`, set `StartedAt`, clear `StoppedAt`. -/
def Start (info : ProcessInfo) (env : ExecEnv) : StartOutcome :=
  if info.status = ProcessStatus.running then
    { info := info, result := Except.error (ProcErr.alreadyRunning info.name),
      launched := false }
  else
    let info₁ := { info with status := ProcessStatus.starting }
    if info₁.user ≠ "" ∧ env.credsFail then
      { info := { info₁ with status := ProcessStatus.errored },
        result := Except.error (ProcErr.credentials info₁.name), launched := false }
    else if env.stdoutPipeFail then
      { info := { info₁ with status := ProcessStatus.errored },
        result := Except.error (ProcErr.stdoutPipe info₁.name), launched := false }
    else if env.stderrPipeFail then
      { info := { info₁ with status := ProcessStatus.errored },
        result := Except.error (ProcErr.stderrPipe info₁.name), launched := false }
    else if env.startFail then
      { info := { info₁ with status := ProcessStatus.errored },
        result := Except.error (ProcErr.execFail info₁.name), launched := false }
    else
      { info := { info₁ with
          status := ProcessStatus.running,
          pid := env.newPid,
          startedAt := some env.now,
          stoppedAt := none },
        result := Except.ok (), launched := true }

/-- `Process.Stop`: reject any status other than `StatusRunning`;
otherwise set `StatusStopping` and, when a child command exists
(`p.cmd != nil && p.cmd.Process != nil`), send SIGTERM to the process
group `-pid`.  The third component is the signal target, `none` when no
signal was sent. -/
def Stop (info : ProcessInfo) (cmdPresent : Bool) :
    ProcessInfo × Except ProcErr Unit × Option Int :=
  if info.status ≠ ProcessStatus.running then
    (info, Except.error (ProcErr.notRunning info.name), none)
  else
    let info₁ := { info with status := ProcessStatus.stopping }
    if cmdPresent then (info₁, Except.ok (), some (-info.pid))
    else (info₁, Except.ok (), none)

/-- Oracle for one `Process.Restart` call: the exec oracle for the final
`Start`, whether a child command exists for the inner `Stop`, and the
process state observed when the 10 × 500 ms poll loop ends (the reaper
runs concurrently during that window). -/
structure RestartEnv where
  exec : ExecEnv
  cmdPresent : Bool
  afterPoll : ProcessInfo → ProcessInfo

/-- `Process.Restart`: when the current status is `StatusRunning`, call
`Stop` (propagating its error), wait through the poll loop, then
`Start`; in every other status call `Start` directly. -/
def Restart (info : ProcessInfo) (env : RestartEnv) : StartOutcome :=
  if info.status = ProcessStatus.running then
    let stopped := Stop info env.cmdPresent
    match stopped.2.1 with
    | Except.error e =>
        { info := stopped.1, result := Except.error e, launched := false }
    | Except.ok _ => Start (env.afterPoll stopped.1) env.exec
  else
    Start info env.exec

/-- The result of one reaper pass (`Process.waitForExit`) up to the
point where the lock is released: the updated `info`, whether the
automatic-restart branch was taken (so `Start` is re-invoked after the
1 s sleep), and whether a synthetic `stderr` line was written for an
abnormal exit. -/
structure ExitOutcome where
  info : ProcessInfo
  restartTriggered : Bool
  wroteErrLine : Bool
deriving DecidableEq, Repr

/-- `Process.waitForExit` after `cmd.Wait` returns: set `StoppedAt`,
clear the pid, compute `shouldRestart := AutoRestart && Status ==
StatusRunning`; when additionally `RestartCount < MaxRestarts`, set
`StatusRestarting`, increment `RestartCount` and re-invoke `Start`;
otherwise set `StatusStopped`.  `exitErr` is whether `cmd.Wait`
returned an error (abnormal exit). -/
def waitForExit (info : ProcessInfo) (exitErr : Bool) (now : Int) : ExitOutcome :=
  let info₁ := { info with stoppedAt := some now, pid := 0 }
  let shouldRestart := info₁.autoRestart && info₁.status = ProcessStatus.running
  if shouldRestart ∧ info₁.restartCount < info₁.maxRestarts then
    { info := { info₁ with
        status := ProcessStatus.restarting,
        restartCount := info₁.restartCount + 1 },
      restartTriggered := true, wroteErrLine := exitErr }
  else
    { info := { info₁ with status := ProcessStatus.stopped },
      restartTriggered := false, wroteErrLine := exitErr }

/-- Oracle for one `process.New` call: the fresh 8-character id from
`uuid.New().String()[:8]`, whether `logger.NewProcessLogger` fails, and
the `time.Now()` reading stored as `CreatedAt`. -/
structure NewEnv where
  newId : String
  loggerFail : Bool
  now : Int
deriving DecidableEq, Repr

/-- `process.New(req, logDir)`: build the initial `ProcessInfo` with
`StatusStopped`, then create the logger (whose failure aborts). -/
def New (req : StartRequest) (env : NewEnv) : Except ProcErr ProcessInfo :=
  let info : ProcessInfo :=
    { id := env.newId
      name := req.name
      status := ProcessStatus.stopped
      pid := 0
      command := req.command
      args := req.args
      workDir := req.workDir
      env := req.env
      autoStart := req.autoStart
      autoRestart := req.autoRestart
      maxRestarts := req.maxRestarts
      restartCount := 0
      user := req.user
      group := req.group
      createdAt := env.now
      startedAt := none
      stoppedAt := none }
  if env.loggerFail then Except.error (ProcErr.loggerCreate req.name)
  else Except.ok info

/-- `process.FromConfig(cfg, logDir)`: rebuild a `StartRequest` from the
persisted definition, run `New`, then keep the persisted id when it is
non-empty. -/
def FromConfig (cfg : ConfigProcess) (env : NewEnv) : Except ProcErr ProcessInfo :=
  let req : StartRequest :=
    { name := cfg.name
      command := cfg.command
      args := cfg.args
      workDir := cfg.workDir
      env := cfg.env
      autoStart := cfg.autoStart
      autoRestart := cfg.autoRestart
      maxRestarts := cfg.maxRestarts
      user := cfg.user
      group := cfg.group }
  match New req env with
  | Except.error e => Except.error e
  | Except.ok p =>
      if cfg.id ≠ "" then Except.ok { p with id := cfg.id } else Except.ok p

end Process

/-! ## Supervisor registry (`Manager` in `internal/process/process.go`)

The Go `map[string]*Process` keyed by id is modelled as a
`List ProcessInfo`; the list order stands for one possible iteration
order of the map.  A Go map-index lookup `m.processes[k]` is
order-independent because ids are the keys, so it is modelled by
`find?` on the id field. -/

namespace Manager

/-- The names of the registry's entries, in iteration order. -/
def namesOf (procs : List ProcessInfo) : List String :=
  procs.map (fun p => p.name)

/-- The ids of the registry's entries, in iteration order. -/
def idsOf (procs : List ProcessInfo) : List String :=
  procs.map (fun p => p.id)

/-- Name uniqueness: no two registry entries share a name. -/
def NamesUnique (procs : List ProcessInfo) : Prop :=
  (namesOf procs).Nodup

/-- Key uniqueness of the underlying Go map: no two entries share an id.
Holds by construction of `map[string]*Process`. -/
def IdsUnique (procs : List ProcessInfo) : Prop :=
  (idsOf procs).Nodup

instance (procs : List ProcessInfo) : Decidable (NamesUnique procs) := by
  unfold NamesUnique; infer_instance

instance (procs : List ProcessInfo) : Decidable (IdsUnique procs) := by
  unfold IdsUnique; infer_instance

/-- `m.processes[p.ID()] = p`: Go map assignment — replace the entry at
an existing key, otherwise add a new entry. -/
def insertById (procs : List ProcessInfo) (p : ProcessInfo) : List ProcessInfo :=
  if procs.any (fun q => q.id = p.id) then
    procs.map (fun q => if q.id = p.id then p else q)
  else
    procs ++ [p]

/-- `Manager.findProcess(idOrName)`: the map-index lookup by id first
(`m.processes[idOrName]`), then a scan over the map comparing names. -/
def findProcess (procs : List ProcessInfo) (idOrName : String) :
    Option ProcessInfo :=
  match procs.find? (fun p => p.id = idOrName) with
  | some p => some p
  | none => procs.find? (fun p => p.name = idOrName)

/-- `Manager.Start(req)` (the create operation).  Returns the new
registry contents, the result, and whether `saveProcesses` ran (i.e.
`processes.json` was written).  Source order: name-conflict scan, `New`,
`proc.Start()`, map insert, save. -/
def start (procs : List ProcessInfo) (req : StartRequest)
    (newEnv : Process.NewEnv) (execEnv : ExecEnv) :
    List ProcessInfo × Except ProcErr ProcessInfo × Bool :=
  if procs.any (fun p => p.name = req.name) then
    (procs, Except.error (ProcErr.nameConflict req.name), false)
  else
    match Process.New req newEnv with
    | Except.error e => (procs, Except.error e, false)
    | Except.ok info =>
        let out := Process.Start info execEnv
        match out.result with
        | Except.error e => (procs, Except.error e, false)
        | Except.ok _ => (insertById procs out.info, Except.ok out.info, true)

/-- `Manager.Stop(idOrName)`: resolve with `findProcess`, `NotFound`
when absent, else delegate to `Process.Stop`.  Returns the acted-on
entry alongside the delegate's result. -/
def stop (procs : List ProcessInfo) (idOrName : String) (cmdPresent : Bool) :
    Except ProcErr (ProcessInfo × (ProcessInfo × Except ProcErr Unit × Option Int)) :=
  match findProcess procs idOrName with
  | none => Except.error (ProcErr.notFound idOrName)
  | some p => Except.ok (p, Process.Stop p cmdPresent)

/-- `Manager.Restart(idOrName)`: resolve with `findProcess`, `NotFound`
when absent, else delegate to `Process.Restart`. -/
def restart (procs : List ProcessInfo) (idOrName : String)
    (env : Process.RestartEnv) : Except ProcErr (ProcessInfo × StartOutcome) :=
  match findProcess procs idOrName with
  | none => Except.error (ProcErr.notFound idOrName)
  | some p => Except.ok (p, Process.Restart p env)

/-- `Manager.Get(idOrName)`: resolve with `findProcess`; `nil` when
absent, else the entry's info view. -/
def get (procs : List ProcessInfo) (idOrName : String) : Option ProcessInfo :=
  findProcess procs idOrName

/-- `Manager.Delete(idOrName)`: iterate the map in iteration order; on
the first entry whose id **or** name matches, Stop it when Running
(propagating errors), close its logger, record its id and break; a
recorded empty id means not found; else remove that id from the map and
persist. -/
def delete (procs : List ProcessInfo) (idOrName : String) (cmdPresent : Bool) :
    List ProcessInfo × Except ProcErr Unit :=
  match procs.find? (fun p => p.id = idOrName ∨ p.name = idOrName) with
  | none => (procs, Except.error (ProcErr.notFound idOrName))
  | some p =>
      let stopRes :=
        if p.status = ProcessStatus.running then (Process.Stop p cmdPresent).2.1
        else Except.ok ()
      match stopRes with
      | Except.error e => (procs, Except.error e)
      | Except.ok _ =>
          if p.id = "" then (procs, Except.error (ProcErr.notFound idOrName))
          else (procs.filter (fun q => q.id ≠ p.id), Except.ok ())

/-- `Manager.loadProcesses`: fold the decoded `processes.json` entries
through `FromConfig` (a failing entry is skipped with a warning) and
Go-map insertion.  Each element pairs a persisted definition with the
oracle for its `New` call.  No name-uniqueness check is performed. -/
def loadProcesses (items : List (ConfigProcess × Process.NewEnv)) :
    List ProcessInfo :=
  items.foldl
    (fun acc item =>
      match Process.FromConfig item.1 item.2 with
      | Except.error _ => acc
      | Except.ok p => insertById acc p)
    []

end Manager

/-! ## Concrete fixtures used by witnesses and counterexamples -/

/-- A representative managed process in a given status. -/
def sampleInfo (st : ProcessStatus) : ProcessInfo :=
  { id := "aaaa0000"
    name := "alpha"
    status := st
    pid := 42
    command := "/bin/sh"
    args := ["-c", "sleep 60"]
    workDir := ""
    env := []
    autoStart := false
    autoRestart := true
    maxRestarts := 3
    restartCount := 0
    user := ""
    group := ""
    createdAt := 0
    startedAt := none
    stoppedAt := none }

/-- An exec oracle where every OS step succeeds. -/
def envOK : ExecEnv :=
  { credsFail := false, stdoutPipeFail := false, stderrPipeFail := false,
    startFail := false, newPid := 77, now := 5 }

/-- An exec oracle where `cmd.Start` fails. -/
def envExecFail : ExecEnv := { envOK with startFail := true }

/-- A restart oracle with a successful exec and an idle poll window. -/
def renvOK : Process.RestartEnv :=
  { exec := envOK, cmdPresent := true, afterPoll := id }

/-- Registry entry whose id is the reference string `"x"`. -/
def entryA : ProcessInfo :=
  { sampleInfo ProcessStatus.stopped with id := "x", name := "aname" }

/-- Registry entry whose name is the reference string `"x"`. -/
def entryB : ProcessInfo :=
  { sampleInfo ProcessStatus.stopped with id := "y", name := "x" }

/-- Persisted definition with name `"dup"` and id `"aaaa"`. -/
def cfgDup1 : ConfigProcess :=
  { id := "aaaa", name := "dup", command := "/bin/a", args := [], workDir := "",
    env := [], autoStart := false, autoRestart := false, maxRestarts := 0,
    user := "", group := "" }

/-- Persisted definition with the same name `"dup"` but id `"bbbb"`. -/
def cfgDup2 : ConfigProcess := { cfgDup1 with id := "bbbb", command := "/bin/b" }

/-- A `New` oracle whose logger creation succeeds. -/
def nenv1 : Process.NewEnv := { newId := "n1aaaaaa", loggerFail := false, now := 0 }

/-- A second successful `New` oracle. -/
def nenv2 : Process.NewEnv := { nenv1 with newId := "n2bbbbbb" }

/-- A create request for a fresh name. -/
def reqSvc : StartRequest :=
  { name := "svc", command := "/bin/svc", args := [], workDir := "", env := [],
    autoStart := false, autoRestart := false, maxRestarts := 0,
    user := "", group := "" }

/-- Log directory with a one-line `stdout.log` and nothing else. -/
def fsOneLine : String → FileState :=
  fun f => if f = "stdout.log" then FileState.present ["a"] else FileState.missing

/-- Log directory with a two-line `stdout.log` and nothing else. -/
def fsTwoLines : String → FileState :=
  fun f => if f = "stdout.log" then FileState.present ["a", "b"] else FileState.missing

/-! ## Helper lemmas -/

lemma collectStatsStep_length_le (m : Nat) (h : List ProcessStats) (s : ProcessStats)
    (hm : h.length ≤ m) : (collectStatsStep m h s).length ≤ m := by
  simp only [collectStatsStep]
  split
  · simp only [List.length_drop, List.length_append, List.length_singleton]
    omega
  · rename_i hc
    simp only [not_lt, List.length_append, List.length_singleton] at hc
    simpa using hc

lemma collectStatsStep_foldl_length_le (m : Nat) (ticks : List ProcessStats) :
    ∀ h : List ProcessStats, h.length ≤ m →
      (ticks.foldl (collectStatsStep m) h).length ≤ m := by
  induction ticks with
  | nil => intro h hm; simpa using hm
  | cons t ts ih =>
      intro h hm
      exact ih _ (collectStatsStep_length_le m h t hm)

lemma collectStep_length_le (m : Nat) (h : List SystemStats) (s : SystemStats)
    (hm : h.length ≤ m) : (Collector.collectStep m h s).length ≤ m := by
  simp only [Collector.collectStep]
  split
  · simp only [List.length_drop, List.length_append, List.length_singleton]
    omega
  · rename_i hc
    simp only [not_lt, List.length_append, List.length_singleton] at hc
    simpa using hc

lemma collectStep_foldl_length_le (m : Nat) (ticks : List SystemStats) :
    ∀ h : List SystemStats, h.length ≤ m →
      (ticks.foldl (Collector.collectStep m) h).length ≤ m := by
  induction ticks with
  | nil => intro h hm; simpa using hm
  | cons t ts ih =>
      intro h hm
      exact ih _ (collectStep_length_le m h t hm)

lemma start_info_name (info : ProcessInfo) (env : ExecEnv) :
    (Process.Start info env).info.name = info.name := by
  simp only [Process.Start]
  split
  · rfl
  · split
    · rfl
    · split
      · rfl
      · split
        · rfl
        · split
          · rfl
          · rfl

lemma new_ok_name (req : StartRequest) (env : Process.NewEnv) (info : ProcessInfo)
    (h : Process.New req env = Except.ok info) : info.name = req.name := by
  simp only [Process.New] at h
  split at h
  · exact Except.noConfusion h
  · simp only [Except.ok.injEq] at h
    subst h
    rfl

lemma insertById_namesUnique (procs : List ProcessInfo) (p : ProcessInfo)
    (hids : Manager.IdsUnique procs) (hnames : Manager.NamesUnique procs)
    (hp : p.name ∉ Manager.namesOf procs) :
    Manager.NamesUnique (Manager.insertById procs p) := by
  unfold Manager.IdsUnique Manager.idsOf at hids
  unfold Manager.NamesUnique Manager.namesOf at hnames
  unfold Manager.namesOf at hp
  unfold Manager.NamesUnique Manager.namesOf Manager.insertById
  split
  · rw [List.map_map]
    have hdup : procs.Nodup := hids.of_map _
    apply hdup.map_on
    intro x hx y hy hxy
    simp only [Function.comp_apply] at hxy
    by_cases hxid : x.id = p.id <;> by_cases hyid : y.id = p.id
    · exact List.inj_on_of_nodup_map hids hx hy (hxid.trans hyid.symm)
    · rw [if_pos hxid, if_neg hyid] at hxy
      exact absurd (hxy ▸ List.mem_map_of_mem (fun q => q.name) hy) hp
    · rw [if_neg hxid, if_pos hyid] at hxy
      exact absurd (hxy ▸ List.mem_map_of_mem (fun q => q.name) hx) hp
    · rw [if_neg hxid, if_neg hyid] at hxy
      exact List.inj_on_of_nodup_map hnames hx hy hxy
  · rw [List.map_append, List.nodup_append]
    refine ⟨hnames, List.nodup_singleton _, ?_⟩
    intro x hx hx2
    simp only [List.map_cons, List.map_nil, List.mem_singleton] at hx2
    subst hx2
    exact hp hx

/-! ## Claims -/

/-- C8: the per-process stats ring and the host stats ring never exceed
1000 entries across any sequence of collection ticks starting from an
empty history, and each append keeps a suffix of the appended history
(the oldest entries are the ones evicted). -/
theorem stats_rings_never_exceed_capacity
    (procTicks : List ProcessStats) (hostTicks : List SystemStats)
    (hist : List ProcessStats) (s : ProcessStats)
    (sysHist : List SystemStats) (t : SystemStats) :
    (procTicks.foldl (collectStatsStep 1000) []).length ≤ 1000 ∧
    (hostTicks.foldl (Collector.collectStep 1000) []).length ≤ 1000 ∧
    collectStatsStep 1000 hist s <:+ hist ++ [s] ∧
    Collector.collectStep 1000 sysHist t <:+ sysHist ++ [t] := by
  refine ⟨collectStatsStep_foldl_length_le 1000 procTicks [] (by simp),
          collectStep_foldl_length_le 1000 hostTicks [] (by simp), ?_, ?_⟩
  · simp only [collectStatsStep]
    split
    · exact List.drop_suffix _ _
    · exact List.suffix_refl _
  · simp only [Collector.collectStep]
    split
    · exact List.drop_suffix _ _
    · exact List.suffix_refl _

/-- C9: `Stop` on a process whose status is `Stopped` returns the
InvalidState error (`process %s is not running`), leaves the process
state unchanged, and sends no signal. -/
theorem stop_on_stopped_is_invalid_state_noop
    (info : ProcessInfo) (cmdPresent : Bool)
    (h : info.status = ProcessStatus.stopped) :
    Process.Stop info cmdPresent =
      (info, Except.error (ProcErr.notRunning info.name), none) := by
  have hne : info.status ≠ ProcessStatus.running := by
    rw [h]; intro hc; cases hc
  simp [Process.Stop, hne]

theorem stop_on_stopped_is_invalid_state_noop_witness :
    Process.Stop (sampleInfo ProcessStatus.stopped) true =
      (sampleInfo ProcessStatus.stopped,
       Except.error (ProcErr.notRunning (sampleInfo ProcessStatus.stopped).name),
       none) :=
  stop_on_stopped_is_invalid_state_noop (sampleInfo ProcessStatus.stopped) true rfl

/-- C10: any stream selector other than the exact strings `"stdout"`
and `"stderr"` makes `GetLogs` read `combined.log`, and a missing
combined file yields an empty result rather than a failure. -/
theorem unknown_stream_selector_reads_combined
    (fs : String → FileState) (n : Int) (t : String)
    (h1 : t ≠ "stdout") (h2 : t ≠ "stderr") :
    ProcessLogger.GetLogs fs n t = readLastLines (fs "combined.log") n ∧
    (fs "combined.log" = FileState.missing →
      ProcessLogger.GetLogs fs n t = Except.ok []) := by
  have hf : ProcessLogger.logFileName t = "combined.log" := by
    simp [ProcessLogger.logFileName, h1, h2]
  constructor
  · simp [ProcessLogger.GetLogs, hf]
  · intro hm
    simp [ProcessLogger.GetLogs, hf, hm, readLastLines]

theorem unknown_stream_selector_reads_combined_witness :
    ProcessLogger.GetLogs (fun _ => FileState.missing) 5 "" = Except.ok [] :=
  (unknown_stream_selector_reads_combined (fun _ => FileState.missing) 5 ""
    (by decide) (by decide)).2 rfl

/-- C4 fails as stated: for `n = 0` (and any `n ≤ 0`) the code returns
**all** lines of the file, so with a one-line `stdout.log` the result
has 1 > 0 lines. -/
theorem get_logs_nonpositive_n_returns_all_lines :
    ProcessLogger.GetLogs fsOneLine 0 "stdout" = Except.ok ["a"] ∧
    ¬ ((["a"] : List String).length : Int) ≤ 0 := by
  constructor
  · rfl
  · decide

/-- C4 amended: for every `n ≥ 1`, `GetLogs` returns at most `n` lines
(all lines when the file has at most `n`, otherwise exactly the last
`n`), and a missing file yields an empty sequence rather than a
failure.  (For `n ≤ 0` the code instead returns every line.) -/
theorem get_logs_line_bound_for_positive_n
    (fs : String → FileState) (n : Int) (t : String) (ls lines : List String)
    (hn : 1 ≤ n) :
    (ProcessLogger.GetLogs fs n t = Except.ok ls → (ls.length : Int) ≤ n) ∧
    (fs (ProcessLogger.logFileName t) = FileState.missing →
      ProcessLogger.GetLogs fs n t = Except.ok []) ∧
    (fs (ProcessLogger.logFileName t) = FileState.present lines →
      ((lines.length : Int) ≤ n → ProcessLogger.GetLogs fs n t = Except.ok lines) ∧
      (n < (lines.length : Int) →
        ProcessLogger.GetLogs fs n t =
          Except.ok (lines.drop (lines.length - n.toNat)))) := by
  have key : ∀ (file : FileState) (ls2 : List String),
      readLastLines file n = Except.ok ls2 → (ls2.length : Int) ≤ n := by
    intro file ls2 hok
    cases file with
    | missing =>
        simp only [readLastLines, Except.ok.injEq] at hok
        subst hok
        simp only [List.length_nil, Nat.cast_zero]
        omega
    | unreadable =>
        simp only [readLastLines] at hok
        exact Except.noConfusion hok
    | present l =>
        simp only [readLastLines] at hok
        by_cases hc : n ≤ 0 ∨ n ≥ (l.length : Int)
        · rw [if_pos hc] at hok
          simp only [Except.ok.injEq] at hok
          subst hok
          rcases hc with hc | hc
          · omega
          · exact hc
        · rw [if_neg hc] at hok
          simp only [Except.ok.injEq] at hok
          subst hok
          push_neg at hc
          simp only [List.length_drop]
          omega
  refine ⟨fun hok => key _ ls hok, ?_, ?_⟩
  · intro hm
    unfold ProcessLogger.GetLogs
    rw [hm]
    rfl
  · intro hp
    unfold ProcessLogger.GetLogs
    rw [hp]
    simp only [readLastLines]
    constructor
    · intro hle
      rw [if_pos (Or.inr hle)]
    · intro hlt
      rw [if_neg (by push_neg; constructor <;> omega)]

theorem get_logs_line_bound_for_positive_n_witness :
    ProcessLogger.GetLogs fsTwoLines 1 "stdout" =
      Except.ok ((["a", "b"] : List String).drop
        ((["a", "b"] : List String).length - Int.toNat 1)) :=
  ((get_logs_line_bound_for_positive_n fsTwoLines 1 "stdout" ["b"] ["a", "b"]
      (by decide)).2.2 rfl).2 (by decide)

/-- C6: the reaper triggers an automatic restart (status `Restarting`,
`RestartCount` incremented, `Start` re-invoked) exactly when
`auto_restart` is set, the status observed at exit is `Running`, and
`restart_count < max_restarts`; otherwise it settles the status to
`Stopped`.  With `max_restarts = 0` and a nonnegative counter no
automatic restart ever fires. -/
theorem reaper_restart_decision (info : ProcessInfo) (exitErr : Bool) (now : Int) :
    ((Process.waitForExit info exitErr now).restartTriggered = true ↔
      (info.autoRestart = true ∧ info.status = ProcessStatus.running ∧
        info.restartCount < info.maxRestarts)) ∧
    ((Process.waitForExit info exitErr now).restartTriggered = true →
      (Process.waitForExit info exitErr now).info.status = ProcessStatus.restarting ∧
      (Process.waitForExit info exitErr now).info.restartCount =
        info.restartCount + 1) ∧
    ((Process.waitForExit info exitErr now).restartTriggered = false →
      (Process.waitForExit info exitErr now).info.status = ProcessStatus.stopped) ∧
    (info.maxRestarts = 0 → 0 ≤ info.restartCount →
      (Process.waitForExit info exitErr now).restartTriggered = false) := by
  unfold Process.waitForExit
  by_cases hc : (info.autoRestart && info.status = ProcessStatus.running) = true ∧
      info.restartCount < info.maxRestarts
  · rw [if_pos hc]
    obtain ⟨hb, hlt⟩ := hc
    simp only [Bool.and_eq_true, decide_eq_true_eq] at hb
    refine ⟨?_, ?_, ?_, ?_⟩
    · simp [hb.1, hb.2, hlt]
    · intro _; exact ⟨rfl, rfl⟩
    · intro h; cases h
    · intro h0 _; omega
  · rw [if_neg hc]
    refine ⟨?_, ?_, ?_, ?_⟩
    · constructor
      · intro h; cases h
      · intro ⟨h1, h2, h3⟩
        exact absurd ⟨by simp [h1, h2], h3⟩ hc
    · intro h; cases h
    · intro _; rfl
    · intro _ _; rfl

theorem reaper_restart_decision_witness :
    (Process.waitForExit
      { sampleInfo ProcessStatus.running with maxRestarts := 0 }
      true 9).restartTriggered = false :=
  (reaper_restart_decision
      { sampleInfo ProcessStatus.running with maxRestarts := 0 } true 9).2.2.2
    rfl (by decide)

/-- C2 fails as stated: `Start` on a process whose status is `Stopping`
does not return an InvalidState error — with every OS step succeeding
it launches a child, returns `nil`, and ends in `Running`.  The same
holds for `Starting` and `Restarting`: the code rejects only
`Running`. -/
theorem start_in_stopping_state_succeeds :
    (Process.Start (sampleInfo ProcessStatus.stopping) envOK).launched = true ∧
    (Process.Start (sampleInfo ProcessStatus.stopping) envOK).result =
      Except.ok () ∧
    (Process.Start (sampleInfo ProcessStatus.stopping) envOK).info.status =
      ProcessStatus.running := by
  refine ⟨rfl, rfl, rfl⟩

/-- C2 amended: `Start` fails with the InvalidState error, launching
nothing, **exactly** when the current status is `Running`; in every
other status (`Stopped`, `Errored`, `Starting`, `Stopping`,
`Restarting`) it proceeds, launching a child whenever the credential,
pipe and exec steps succeed. -/
theorem start_rejects_only_running (info : ProcessInfo) (env : ExecEnv) :
    (info.status = ProcessStatus.running →
      Process.Start info env =
        { info := info,
          result := Except.error (ProcErr.alreadyRunning info.name),
          launched := false }) ∧
    (info.status ≠ ProcessStatus.running →
      (info.user = "" ∨ env.credsFail = false) → env.stdoutPipeFail = false →
      env.stderrPipeFail = false → env.startFail = false →
      (Process.Start info env).result = Except.ok () ∧
      (Process.Start info env).launched = true ∧
      (Process.Start info env).info.status = ProcessStatus.running) ∧
    ((Process.Start info env).launched = true →
      info.status ≠ ProcessStatus.running) := by
  refine ⟨?_, ?_, ?_⟩
  · intro h
    simp [Process.Start, h]
  · intro hne hcred h1 h2 h3
    have hcred' : ¬ (info.user ≠ "" ∧ env.credsFail = true) := by
      rcases hcred with hu | hc
      · intro ⟨ha, _⟩; exact ha hu
      · intro ⟨_, hb⟩; rw [hc] at hb; cases hb
    simp [Process.Start, hne, hcred', h1, h2, h3]
  · intro hl
    intro hrun
    simp [Process.Start, hrun] at hl

theorem start_rejects_only_running_witness :
    (Process.Start (sampleInfo ProcessStatus.stopped) envOK).launched = true :=
  ((start_rejects_only_running (sampleInfo ProcessStatus.stopped) envOK).2.1
    (by decide) (Or.inl rfl) rfl rfl rfl).2.1

/-- C1 fails as stated: `Restart` on a process whose status is
`Restarting` is not a no-op — it invokes `Start` directly, which (the
status not being `Running`) launches a fresh child and moves the
status to `Running`. -/
theorem restart_during_restarting_launches_child :
    (Process.Restart (sampleInfo ProcessStatus.restarting) renvOK).launched =
      true ∧
    (Process.Restart (sampleInfo ProcessStatus.restarting) renvOK).info.status =
      ProcessStatus.running ∧
    (Process.Restart (sampleInfo ProcessStatus.restarting) renvOK).info ≠
      sampleInfo ProcessStatus.restarting := by
  refine ⟨rfl, rfl, by decide⟩

/-- C1 amended: a `Restart` issued while the status is `Restarting`
skips the Stop-and-poll phase entirely and is exactly a direct call to
`Start` (which then proceeds, the status not being `Running`). -/
theorem restart_nonrunning_goes_straight_to_start
    (info : ProcessInfo) (env : Process.RestartEnv)
    (h : info.status = ProcessStatus.restarting) :
    Process.Restart info env = Process.Start info env.exec := by
  have hne : info.status ≠ ProcessStatus.running := by
    rw [h]; intro hc; cases hc
  simp [Process.Restart, hne]

theorem restart_nonrunning_goes_straight_to_start_witness :
    Process.Restart (sampleInfo ProcessStatus.restarting) renvOK =
      Process.Start (sampleInfo ProcessStatus.restarting) renvOK.exec :=
  restart_nonrunning_goes_straight_to_start
    (sampleInfo ProcessStatus.restarting) renvOK rfl

/-- C3 fails as stated: restoring a `processes.json` that holds two
definitions with distinct ids but the same name `"dup"` inserts both —
`loadProcesses` performs no name-uniqueness check, so the restored
registry violates name uniqueness. -/
theorem load_processes_admits_duplicate_names :
    ¬ Manager.NamesUnique
        (Manager.loadProcesses [(cfgDup1, nenv1), (cfgDup2, nenv2)]) ∧
    Manager.namesOf (Manager.loadProcesses [(cfgDup1, nenv1), (cfgDup2, nenv2)]) =
      ["dup", "dup"] ∧
    Manager.idsOf (Manager.loadProcesses [(cfgDup1, nenv1), (cfgDup2, nenv2)]) =
      ["aaaa", "bbbb"] := by
  refine ⟨by decide, rfl, rfl⟩

/-- C3 amended: the create path does preserve name uniqueness — it
fails with the NameConflict error, leaving the registry unchanged, when
any entry already carries the requested name, and otherwise the
inserted entry's name is new — but the boot-restore path
(`loadProcesses`) performs no such check and can produce duplicates. -/
theorem create_preserves_name_uniqueness
    (procs : List ProcessInfo) (req : StartRequest)
    (nenv : Process.NewEnv) (eenv : ExecEnv)
    (hids : Manager.IdsUnique procs) (hnames : Manager.NamesUnique procs) :
    Manager.NamesUnique (Manager.start procs req nenv eenv).1 ∧
    ((∃ p ∈ procs, p.name = req.name) →
      Manager.start procs req nenv eenv =
        (procs, Except.error (ProcErr.nameConflict req.name), false)) := by
  constructor
  · unfold Manager.start
    split
    · exact hnames
    · rename_i hnc
      cases hnew : Process.New req nenv with
      | error e => exact hnames
      | ok info =>
          dsimp only
          cases hres : (Process.Start info eenv).result with
          | error e => exact hnames
          | ok u =>
              show Manager.NamesUnique
                (Manager.insertById procs (Process.Start info eenv).info)
              apply insertById_namesUnique procs _ hids hnames
              rw [start_info_name, new_ok_name req nenv info hnew]
              intro hmem
              apply hnc
              simp only [List.any_eq_true, decide_eq_true_eq]
              unfold Manager.namesOf at hmem
              obtain ⟨q, hq, hqn⟩ := List.mem_map.mp hmem
              exact ⟨q, hq, hqn⟩
  · intro ⟨p, hp, hpname⟩
    have hany : procs.any (fun p => p.name = req.name) = true := by
      simp only [List.any_eq_true, decide_eq_true_eq]
      exact ⟨p, hp, hpname⟩
    unfold Manager.start
    rw [if_pos hany]

theorem create_preserves_name_uniqueness_witness :
    Manager.NamesUnique (Manager.start [] reqSvc nenv1 envOK).1 :=
  (create_preserves_name_uniqueness [] reqSvc nenv1 envOK
    (by decide) (by decide)).1

/-- C5 fails as stated: `Delete` does not resolve id-first.  It scans
the map in iteration order matching id **or** name, so with an
iteration order that reaches the name-matched entry `entryB`
(name `"x"`, id `"y"`) before the id-matched entry `entryA`
(id `"x"`), `delete("x")` removes `entryB` and leaves `entryA` — while
the shared resolver `findProcess` picks `entryA`. -/
theorem delete_prefers_iteration_order_over_id :
    (Manager.delete [entryB, entryA] "x" false).1 = [entryA] ∧
    (Manager.delete [entryB, entryA] "x" false).2 = Except.ok () ∧
    Manager.findProcess [entryB, entryA] "x" = some entryA ∧
    entryA.id = "x" ∧ entryB.name = "x" ∧ entryB.id ≠ "x" := by
  refine ⟨by decide, rfl, by decide, rfl, rfl, by decide⟩

/-- C5 amended: the operations that resolve through `findProcess`
(stop, restart, get — and likewise stats, stats-history and logs in the
source) do act on an id-matched entry whenever one exists, name matches
notwithstanding; `Delete` alone bypasses `findProcess` and picks the
first id-or-name match in map iteration order. -/
theorem resolver_prefers_exact_id
    (procs : List ProcessInfo) (ref : String) (q : ProcessInfo)
    (hq : q ∈ procs) (hid : q.id = ref) :
    (∃ r, Manager.findProcess procs ref = some r ∧ r.id = ref) ∧
    (∀ cp, ∃ r rest, Manager.stop procs ref cp = Except.ok (r, rest) ∧
      r.id = ref) ∧
    (∀ env, ∃ r out, Manager.restart procs ref env = Except.ok (r, out) ∧
      r.id = ref) ∧
    (∃ r, Manager.get procs ref = some r ∧ r.id = ref) := by
  have hsome : (procs.find? (fun p => p.id = ref)).isSome := by
    rw [List.find?_isSome]
    exact ⟨q, hq, by simp [hid]⟩
  obtain ⟨r, hr⟩ := Option.isSome_iff_exists.mp hsome
  have hrid : r.id = ref := by
    have := List.find?_some hr
    simpa using this
  have hfp : Manager.findProcess procs ref = some r := by
    unfold Manager.findProcess
    rw [hr]
  refine ⟨⟨r, hfp, hrid⟩, ?_, ?_, ⟨r, hfp, hrid⟩⟩
  · intro cp
    refine ⟨r, Process.Stop r cp, ?_, hrid⟩
    unfold Manager.stop
    rw [hfp]
  · intro env
    refine ⟨r, Process.Restart r env, ?_, hrid⟩
    unfold Manager.restart
    rw [hfp]

theorem resolver_prefers_exact_id_witness :
    ∃ r, Manager.findProcess [entryB, entryA] "x" = some r ∧ r.id = "x" :=
  (resolver_prefers_exact_id [entryB, entryA] "x" entryA
    (by simp) rfl).1

/-- C7: when the inner `proc.Start()` of a create request fails, the
registry map is unchanged, `processes.json` is not written, and the
error is returned to the caller. -/
theorem create_start_failure_leaves_registry_unchanged
    (procs : List ProcessInfo) (req : StartRequest) (nenv : Process.NewEnv)
    (eenv : ExecEnv) (info : ProcessInfo) (e : ProcErr)
    (hclean : procs.any (fun p => p.name = req.name) = false)
    (hnew : Process.New req nenv = Except.ok info)
    (hfail : (Process.Start info eenv).result = Except.error e) :
    Manager.start procs req nenv eenv = (procs, Except.error e, false) := by
  unfold Manager.start
  rw [if_neg (by rw [hclean]; exact Bool.false_ne_true)]
  rw [hnew]
  dsimp only
  rw [hfail]

theorem create_start_failure_leaves_registry_unchanged_witness :
    Manager.start [] reqSvc nenv1 envExecFail =
      ([], Except.error (ProcErr.execFail "svc"), false) :=
  create_start_failure_leaves_registry_unchanged [] reqSvc nenv1 envExecFail
    _ _ rfl rfl rfl

end Gemstone
